import Mathlib

/-!
Verification of the `TicketGen.py` ticket renderer (repository
LucaZH/ticket-generator).

The Python source is shallowly embedded below.  Pillow (PIL) and the
`qrcode` package are external collaborators of the program; the parts of
their behaviour that the source exercises are modelled explicitly:

* an image is modelled by its mode, its pixel dimensions and an optional
  uniform colour (`uniform = some c` means every pixel of the image has
  colour `c`; `none` means the pixel contents are not tracked);
* the file system is a partial map from paths to decoded images
  (`none` models a missing or unreadable file, for which `PIL.Image.open`
  raises an exception);
* Python `float` arithmetic on the small integer ratios appearing in the
  source is modelled with exact rationals; the concrete inputs evaluated
  in the theorems below only involve dyadic values on which `float`
  arithmetic is exact;
* `PIL.Image.crop` rounds its box coordinates with Python's `round`
  (round-half-to-even) before cropping; this is `pyRound` below;
* `ImageDraw.rectangle` fills its coordinate box inclusively, and
  `ImageDraw.pieslice` fills the part of the ellipse inscribed in its
  bounding box that lies in the given angular sector; only the four
  axis-aligned quarter sectors used by the source are modelled;
* `qrcode.QRCode(version=2, ...).make(fit=True)` selects the smallest
  version `v ≥ 2` (up to 40) whose ECC-level-H byte capacity holds the
  payload, and raises `DataOverflowError` when none does;
* text rasterisation is abstracted by a caller-supplied measurement
  oracle, and the drawing calls issued by the renderer are recorded as a
  trace of `DrawOp` values.
-/

namespace TicketGen

/-- Pixel colour `(r, g, b, a)`. -/
abbrev Color := Nat × Nat × Nat × Nat

/-- PIL image modes occurring in the program. -/
inductive Mode
  | RGB | RGBA | L | LA | P | one
deriving DecidableEq, Repr

/-- Model of a PIL image: mode, dimensions, and an optional uniform
colour (`some c` when every pixel is known to be `c`). -/
structure Image where
  mode : Mode
  width : Nat
  height : Nat
  uniform : Option Color
deriving DecidableEq, Repr

/-- The file system: a map from paths to decoded images.  `none` models a
missing or unreadable file. -/
abbrev FS := String → Option Image

/-- Exceptions raised by the external libraries. -/
inductive Err
  | ioError | zeroDivision | valueError | dataOverflow
deriving DecidableEq, Repr

namespace Image

/-- `PIL.Image.new(mode, (w, h), color)`. -/
def new (m : Mode) (w h : Nat) (c : Color) : Image :=
  ⟨m, w, h, some c⟩

/-- `im.convert(mode)` changes the mode; the uniform colour is kept only
when the mode is unchanged. -/
def convert (im : Image) (m : Mode) : Image :=
  { im with mode := m, uniform := if m = im.mode then im.uniform else none }

/-- `im.resize((w, h), filter)` changes the dimensions. -/
def resize (im : Image) (w h : Nat) : Image :=
  { im with width := w, height := h }

/-- `dst.paste(src, (x, y))` (also with `src` as its own mask): modifies
pixels of `dst` in place; mode and dimensions of `dst` are unchanged. -/
def paste (dst : Image) (_src : Image) (_x _y : Int) : Image :=
  { dst with uniform := none }

end Image

/-- `dst.paste(src, pos, mask=src)`: PIL raises `ValueError` ("bad
transparency mask") unless the mask mode is `1`, `L`, `LA` or `RGBA`. -/
def pasteMasked (dst src : Image) (_x _y : Int) : Except Err Image :=
  if src.mode = .RGBA ∨ src.mode = .LA ∨ src.mode = .L ∨ src.mode = .one then
    .ok { dst with uniform := none }
  else
    .error .valueError

/-- `PIL.Image.alpha_composite(a, b)`: both images must be RGBA and of
equal size, otherwise `ValueError`. -/
def alpha_composite (a b : Image) : Except Err Image :=
  if a.mode = .RGBA ∧ b.mode = .RGBA ∧ a.width = b.width ∧ a.height = b.height then
    .ok ⟨.RGBA, a.width, a.height, none⟩
  else
    .error .valueError

/-- Python's `round` on the exact rational value of a float: round half
to even. -/
def pyRound (q : ℚ) : ℤ :=
  if q - ⌊q⌋ < 1/2 then ⌊q⌋
  else if 1/2 < q - ⌊q⌋ then ⌊q⌋ + 1
  else if 2 ∣ ⌊q⌋ then ⌊q⌋ else ⌊q⌋ + 1

/-- `im.crop((left, top, right, bottom))`: PIL rounds each box coordinate
with Python's `round` and the result has the rounded box's dimensions. -/
def crop (im : Image) (left top right bottom : ℚ) : Image :=
  { mode := im.mode
    width := (pyRound right - pyRound left).toNat
    height := (pyRound bottom - pyRound top).toNat
    uniform := none }

/-- `TicketConfig` dataclass. -/
structure TicketConfig where
  width : Nat := 1202
  height : Nat := 450
  padding : Nat := 50
  font_large_size : Nat := 36
  font_small_size : Nat := 16
  icon_size : Nat := 24
deriving DecidableEq, Repr

/-- `EventDetails` dataclass. -/
structure EventDetails where
  title : String
  category : String
  date : String
  time : String
  location : String
  ticket_type : String
  url : String
deriving DecidableEq, Repr

/-- `TicketData` dataclass. -/
structure TicketData where
  ticket_number : Int
  owner : String
  qr_data : String
  event : EventDetails
deriving DecidableEq, Repr

/-- The three font roles loaded by `setup_fonts`. -/
inductive FontRole
  | large | small | bold
deriving DecidableEq, Repr

/-- Text-measurement oracle abstracting `draw.textbbox` for the loaded
fonts (`get_text_dimensions` returns width and height). -/
abbrev Measure := String → FontRole → Int × Int

/-- One drawing call issued by the renderer. -/
inductive DrawOp
  | text (x y : Int) (s : String) (font : FontRole) (fill : Nat × Nat × Nat)
  | iconPaste (x y : Int) (icon : String) (masked : Bool)
  | rect (x0 y0 x1 y1 : Int) (fill : Nat × Nat × Nat)
  | pieslice (x0 y0 x1 y1 : Int) (startAng endAng : Nat) (fill : Nat × Nat × Nat)
deriving DecidableEq, Repr

/-- The `icon_files` dictionary of `load_icons`. -/
def iconFiles : List (String × String) :=
  [("calendar", "calendar.png"), ("clock", "clock.png"),
   ("map", "map.png"), ("ticket", "ticket.png")]

/-- Loading of one icon in `load_icons`: open, convert to RGBA and resize
on success; on any failure substitute a fully transparent image of the
configured icon size. -/
def load_icon (cfg : TicketConfig) (fs : FS) (folder file : String) : Image :=
  match fs (folder ++ "/" ++ file) with
  | some icon => (icon.convert .RGBA).resize cfg.icon_size cfg.icon_size
  | none => Image.new .RGBA cfg.icon_size cfg.icon_size (0, 0, 0, 0)

/-- `load_icons`: the `self.icons` dictionary as a function of the icon
name.  Names outside the dictionary are never queried by the renderer. -/
def load_icons (cfg : TicketConfig) (fs : FS) (folder : String) : String → Image :=
  fun name =>
    match iconFiles.lookup name with
    | some file => load_icon cfg fs folder file
    | none => Image.new .RGBA cfg.icon_size cfg.icon_size (0, 0, 0, 0)

/-- `TicketGenerator` after `__init__`: the configuration and the loaded
icons (fonts are consumed only through the `Measure` oracle). -/
structure TicketGenerator where
  config : TicketConfig
  icons : String → Image

/-- `TicketGenerator(config, icons_folder)`. -/
def TicketGenerator.init (cfg : TicketConfig) (fs : FS) (folder : String) : TicketGenerator :=
  ⟨cfg, load_icons cfg fs folder⟩

/-- `'A' in icon.getbands()`. -/
def hasAlphaBand (m : Mode) : Bool :=
  m = .RGBA ∨ m = .LA

/-- `draw_icon_with_text`: paste the icon (with itself as mask when it
has an alpha band) and draw the label; returns the trace of the two
drawing calls. -/
def draw_icon_with_text (gen : TicketGenerator) (x y : Int) (icon_type text : String) :
    List DrawOp :=
  let cfg := gen.config
  let icon := gen.icons icon_type
  [DrawOp.iconPaste x y icon_type (hasAlphaBand icon.mode),
   DrawOp.text (x + cfg.icon_size + 10)
     (y + Int.fdiv ((cfg.icon_size : Int) - cfg.font_small_size) 2)
     text .small (81, 79, 79)]

/-- `create_rounded_rectangle`: two straight rectangles plus four
90-degree pie slices. -/
def create_rounded_rectangle (x1 y1 x2 y2 radius : Int) (fill : Nat × Nat × Nat) :
    List DrawOp :=
  [DrawOp.rect (x1 + radius) y1 (x2 - radius) y2 fill,
   DrawOp.rect x1 (y1 + radius) x2 (y2 - radius) fill,
   DrawOp.pieslice x1 y1 (x1 + radius * 2) (y1 + radius * 2) 180 270 fill,
   DrawOp.pieslice (x2 - radius * 2) y1 x2 (y1 + radius * 2) 270 360 fill,
   DrawOp.pieslice x1 (y2 - radius * 2) (x1 + radius * 2) y2 90 180 fill,
   DrawOp.pieslice (x2 - radius * 2) (y2 - radius * 2) x2 y2 0 90 fill]

/-- The scaled size chosen by `process_background` before cropping:
match the constrained axis and overscale the other, preserving the
source aspect ratio up to `int(...)` truncation. -/
def pbScaledSize (cfg : TicketConfig) (bgw bgh : Nat) : Nat × Nat :=
  let bg_aspect : ℚ := (bgw : ℚ) / (bgh : ℚ)
  let ticket_aspect : ℚ := (cfg.width : ℚ) / (cfg.height : ℚ)
  if ticket_aspect < bg_aspect then
    ((⌊(cfg.height : ℚ) * bg_aspect⌋).toNat, cfg.height)
  else
    (cfg.width, (⌊(cfg.width : ℚ) / bg_aspect⌋).toNat)

/-- The centred crop of `process_background`. -/
def cropCentered (cfg : TicketConfig) (im : Image) : Image :=
  let left : ℚ := ((im.width : ℚ) - (cfg.width : ℚ)) / 2
  let top : ℚ := ((im.height : ℚ) - (cfg.height : ℚ)) / 2
  crop im left top (left + cfg.width) (top + cfg.height)

/-- `process_background`: open the background (fatal on failure), scale
uniformly to cover the target rectangle, and centre-crop.  A zero
dimension makes one of the Python divisions raise `ZeroDivisionError`:
`bg_aspect` needs `background.height ≠ 0`, `ticket_aspect` needs
`config.height ≠ 0`, and a zero `background.width` gives `bg_aspect = 0`,
which always reaches the second branch and its division by `bg_aspect`. -/
def process_background (cfg : TicketConfig) (fs : FS) (path : String) :
    Except Err Image :=
  match fs path with
  | none => .error .ioError
  | some background =>
    if background.height = 0 ∨ cfg.height = 0 then .error .zeroDivision
    else if background.width = 0 then .error .zeroDivision
    else
      let n := pbScaledSize cfg background.width background.height
      .ok (cropCentered cfg (background.resize n.1 n.2))

/-- The alpha drawn at column `i` of the gradient:
`int(255 * (1 - i / width))`. -/
def gradientAlpha (w i : Nat) : Nat :=
  (⌊(255 : ℚ) * (1 - (i : ℚ) / (w : ℚ))⌋).toNat

/-- The vertical lines drawn by the loop of `add_gradient`: column index
together with the fill colour `(255, 255, 255, alpha)`. -/
def gradientLineOps (cfg : TicketConfig) : List (Nat × Color) :=
  (List.range cfg.width).map fun i =>
    (i, (255, 255, 255, gradientAlpha cfg.width i))

/-- The gradient overlay image built by `add_gradient`: a new RGBA image
of canvas size, initially uniform (255, 255, 255, 0), whose pixels stop
being uniform as soon as the loop draws at least one line. -/
def gradientImage (cfg : TicketConfig) : Image :=
  { mode := .RGBA, width := cfg.width, height := cfg.height,
    uniform := if (gradientLineOps cfg).isEmpty then some (255, 255, 255, 0) else none }

/-- `add_gradient`: alpha-composite the gradient overlay over the
RGBA-converted ticket. -/
def add_gradient (cfg : TicketConfig) (ticket : Image) : Except Err Image :=
  alpha_composite (ticket.convert .RGBA) (gradientImage cfg)

/-- ECC-level-H byte-mode character capacities of QR versions 1..40. -/
def byteCapacityH : List Nat :=
  [7, 14, 24, 34, 44, 58, 64, 84, 98, 119, 137, 155, 177, 194, 220,
   250, 280, 310, 338, 382, 403, 439, 461, 511, 535, 593, 625, 658,
   698, 742, 790, 842, 898, 958, 983, 1051, 1093, 1139, 1219, 1273]

/-- ECC-level-H byte capacity of a QR version (0 outside 1..40). -/
def capacityH (v : Nat) : Nat :=
  byteCapacityH.getD (v - 1) 0

/-- `qr.make(fit=True)` with `version=2`: the smallest version in 2..40
whose capacity holds the payload, or `none` (`DataOverflowError`). -/
def bestFit (len : Nat) : Option Nat :=
  (List.range' 2 39).find? fun v => decide (len ≤ capacityH v)

/-- The bitmap produced by `qr.make_image(...)` (mode `1`): the symbol
has `4 v + 17` modules per side plus the border on each side, all scaled
by the box size. -/
def qrBitmap (v box border : Nat) : Image :=
  ⟨.one, (4 * v + 17 + 2 * border) * box, (4 * v + 17 + 2 * border) * box, none⟩

/-- `add_qr_code`: build the version-fitted ECC-H QR symbol (fatal on
overflow), resize it to 320 by 320, open the logo (fatal on failure),
resize it to 80 by 40, paste it centred on the QR bitmap with itself as
mask, and paste the result on the ticket at (830, 50). -/
def add_qr_code (_cfg : TicketConfig) (fs : FS) (ticket : Image) (qr_data : String) :
    Except Err Image :=
  match bestFit qr_data.utf8ByteSize with
  | none => .error .dataOverflow
  | some v =>
    let qr_code := (qrBitmap v 8 2).convert .RGB
    let qr_code := qr_code.resize 320 320
    match fs "./EVNTia.png" with
    | none => .error .ioError
    | some logo =>
      let logo := logo.resize 80 40
      match pasteMasked qr_code logo (((320 : Int) - 80) / 2) (((320 : Int) - 40) / 2) with
      | .error e => .error e
      | .ok qr2 => .ok (ticket.paste qr2 830 50)

/-- The trace of the text, badge and icon drawing calls issued by
`generate_ticket` between the gradient step and the QR step, in source
order. -/
def ticketOps (gen : TicketGenerator) (measure : Measure) (td : TicketData) :
    List DrawOp :=
  let cfg := gen.config
  let o1 := DrawOp.text cfg.padding 20 ("N: " ++ toString td.ticket_number) .bold (0, 0, 0)
  let o2 := DrawOp.text cfg.padding 70 ("Propriétaire: " ++ td.owner) .small (0, 0, 0)
  let o3 := DrawOp.text cfg.padding 130 "Informations" .large (255, 215, 0)
  let o4 := DrawOp.text cfg.padding 180 td.event.title .bold (0, 0, 0)
  let title_width := (measure td.event.title .bold).1
  let category_width := (measure td.event.category .small).1
  let category_height := (measure td.event.category .small).2
  let category_x : Int := (cfg.padding : Int) + title_width + 10
  let category_y : Int := 180 + 5
  let badge := create_rounded_rectangle category_x category_y
    (category_x + category_width + 20) (category_y + category_height + 10)
    10 (255, 215, 0)
  let o6 := DrawOp.text (category_x + 10) (category_y + 2) td.event.category .small (0, 0, 0)
  let rows :=
    draw_icon_with_text gen ((cfg.padding : Int) + 0) 260 "calendar" td.event.date ++
    draw_icon_with_text gen (cfg.padding : Int) 300 "clock" td.event.time ++
    draw_icon_with_text gen (cfg.padding : Int) 340 "map" td.event.location ++
    draw_icon_with_text gen (cfg.padding : Int) 380 "ticket" td.event.ticket_type
  [o1, o2, o3, o4] ++ badge ++ [o6] ++ rows

/-- `generate_ticket`: the final image together with the trace of the
drawing calls. -/
def generate_ticket (gen : TicketGenerator) (fs : FS) (measure : Measure)
    (background_path : String) (td : TicketData) :
    Except Err (Image × List DrawOp) :=
  let cfg := gen.config
  let ticket0 := Image.new .RGB cfg.width cfg.height (255, 255, 255, 255)
  match process_background cfg fs background_path with
  | .error e => .error e
  | .ok background =>
    let ticket1 := ticket0.paste background 0 0
    match add_gradient cfg ticket1 with
    | .error e => .error e
    | .ok ticket2 =>
      let ticket3 : Image := { ticket2 with uniform := none }
      match add_qr_code cfg fs ticket3 td.qr_data with
      | .error e => .error e
      | .ok ticket4 => .ok (ticket4, ticketOps gen measure td)

/-- The sample `EventDetails` of the `__main__` block. -/
def demoEvent : EventDetails :=
  { title := "MAGE4"
    category := "Concert"
    date := "19 Septembre 2024"
    time := "14 H"
    location := "Antsahamanitra, Antananarivo"
    ticket_type := "Bronze"
    url := "https://evntia.tech/event/12" }

/-- The sample `TicketData` of the `__main__` block. -/
def demoTicketData : TicketData :=
  { ticket_number := 12
    owner := "RANDRIAMANANTENA LUCA ZO HAINGO"
    qr_data := demoEvent.url
    event := demoEvent }

/-- The `__main__` block: default configuration, render against
`./Mage4.jpg`, then convert the result to RGB. -/
def demo (fs : FS) (measure : Measure) : Except Err Image :=
  (generate_ticket (TicketGenerator.init {} fs "icons") fs measure
      "./Mage4.jpg" demoTicketData).map fun r => r.1.convert .RGB

/-! ### Pixel-trim accounting for the centred crop -/

/-- Pixels trimmed from the left (or top) of the scaled background by the
centred crop. -/
def leftTrim (target scaled : Nat) : Int :=
  pyRound (((scaled : ℚ) - (target : ℚ)) / 2)

/-- Pixels trimmed from the right (or bottom) of the scaled background by
the centred crop. -/
def rightTrim (target scaled : Nat) : Int :=
  (scaled : Int) - pyRound (((scaled : ℚ) - (target : ℚ)) / 2 + (target : ℚ))

/-! ### Pixel semantics of the drawing primitives used by
`create_rounded_rectangle` -/

/-- Membership of a pixel in the ellipse inscribed in the box
`[x0, x1] × [y0, y1]` (coordinates doubled to keep the centre integral):
`((x - cx) / rx)^2 + ((y - cy) / ry)^2 ≤ 1` with `cx = (x0 + x1)/2`,
`rx = (x1 - x0)/2`, and similarly for y. -/
abbrev inEllipse (x0 y0 x1 y1 x y : Int) : Prop :=
  (2 * x - (x0 + x1)) ^ 2 * (y1 - y0) ^ 2 + (2 * y - (y0 + y1)) ^ 2 * (x1 - x0) ^ 2
    ≤ (x1 - x0) ^ 2 * (y1 - y0) ^ 2

/-- Membership of a pixel in the angular sector of a pie slice, for the
four axis-aligned quarter sectors used by the source (angles measured as
in PIL: 0 is 3 o'clock, increasing clockwise). -/
abbrev inSector (a b : Nat) (x0 y0 x1 y1 x y : Int) : Prop :=
  (a = 180 ∧ b = 270 ∧ 2 * x ≤ x0 + x1 ∧ 2 * y ≤ y0 + y1) ∨
  (a = 270 ∧ b = 360 ∧ x0 + x1 ≤ 2 * x ∧ 2 * y ≤ y0 + y1) ∨
  (a = 90 ∧ b = 180 ∧ 2 * x ≤ x0 + x1 ∧ y0 + y1 ≤ 2 * y) ∨
  (a = 0 ∧ b = 90 ∧ x0 + x1 ≤ 2 * x ∧ y0 + y1 ≤ 2 * y)

/-- Which pixels a drawing call fills with its solid colour:
`draw.rectangle` fills its box inclusively; `draw.pieslice` fills the
inscribed ellipse restricted to the sector; text and icon calls are not
solid fills. -/
def opFills : DrawOp → Int × Int → Prop
  | .rect x0 y0 x1 y1 _, p => x0 ≤ p.1 ∧ p.1 ≤ x1 ∧ y0 ≤ p.2 ∧ p.2 ≤ y1
  | .pieslice x0 y0 x1 y1 a b _, p =>
      (x0 ≤ p.1 ∧ p.1 ≤ x1 ∧ y0 ≤ p.2 ∧ p.2 ≤ y1) ∧
      inEllipse x0 y0 x1 y1 p.1 p.2 ∧ inSector a b x0 y0 x1 y1 p.1 p.2
  | .text _ _ _ _ _, _ => False
  | .iconPaste _ _ _ _, _ => False

instance (op : DrawOp) (p : Int × Int) : Decidable (opFills op p) :=
  match op with
  | .text _ _ _ _ _ => isFalse id
  | .iconPaste _ _ _ _ => isFalse id
  | .rect x0 y0 x1 y1 _ =>
      inferInstanceAs (Decidable (x0 ≤ p.1 ∧ p.1 ≤ x1 ∧ y0 ≤ p.2 ∧ p.2 ≤ y1))
  | .pieslice x0 y0 x1 y1 a b _ =>
      inferInstanceAs (Decidable ((x0 ≤ p.1 ∧ p.1 ≤ x1 ∧ y0 ≤ p.2 ∧ p.2 ≤ y1) ∧
        inEllipse x0 y0 x1 y1 p.1 p.2 ∧ inSector a b x0 y0 x1 y1 p.1 p.2))

/-- A pixel is filled by a list of drawing calls when some call fills
it. -/
def fillsAny (ops : List DrawOp) (p : Int × Int) : Prop :=
  ∃ op ∈ ops, opFills op p

instance (ops : List DrawOp) (p : Int × Int) : Decidable (fillsAny ops p) :=
  inferInstanceAs (Decidable (∃ op ∈ ops, opFills op p))

/-- The ideal rounded rectangle: the box minus, in each corner square,
the pixels farther than the radius from the corner disc centre. -/
abbrev idealRoundedRect (x1 y1 x2 y2 r : Int) (p : Int × Int) : Prop :=
  x1 ≤ p.1 ∧ p.1 ≤ x2 ∧ y1 ≤ p.2 ∧ p.2 ≤ y2 ∧
  (p.1 < x1 + r ∧ p.2 < y1 + r → (p.1 - (x1 + r)) ^ 2 + (p.2 - (y1 + r)) ^ 2 ≤ r ^ 2) ∧
  (x2 - r < p.1 ∧ p.2 < y1 + r → (p.1 - (x2 - r)) ^ 2 + (p.2 - (y1 + r)) ^ 2 ≤ r ^ 2) ∧
  (p.1 < x1 + r ∧ y2 - r < p.2 → (p.1 - (x1 + r)) ^ 2 + (p.2 - (y2 - r)) ^ 2 ≤ r ^ 2) ∧
  (x2 - r < p.1 ∧ y2 - r < p.2 → (p.1 - (x2 - r)) ^ 2 + (p.2 - (y2 - r)) ^ 2 ≤ r ^ 2)

/-- The box minus the four (closed, r by r) corner squares. -/
abbrev rectMinusCorners (x1 y1 x2 y2 r : Int) (p : Int × Int) : Prop :=
  x1 ≤ p.1 ∧ p.1 ≤ x2 ∧ y1 ≤ p.2 ∧ p.2 ≤ y2 ∧
  ¬(p.1 < x1 + r ∧ p.2 < y1 + r) ∧ ¬(x2 - r < p.1 ∧ p.2 < y1 + r) ∧
  ¬(p.1 < x1 + r ∧ y2 - r < p.2) ∧ ¬(x2 - r < p.1 ∧ y2 - r < p.2)

/-! ### Concrete scenarios used by the counterexamples and witnesses -/

/-- A small valid configuration for concrete evaluation. -/
def exCfg : TicketConfig :=
  { width := 4, height := 3, padding := 1, font_large_size := 2,
    font_small_size := 1, icon_size := 2 }

/-- A file system holding a background and an RGBA logo but no icons. -/
def exFS : FS := fun p =>
  if p = "bg" then some ⟨.RGB, 4, 3, none⟩
  else if p = "./EVNTia.png" then some ⟨.RGBA, 8, 4, none⟩
  else none

/-- A constant text-measurement oracle. -/
def exMeasure : Measure := fun _ _ => (4, 3)

/-- A concrete ticket. -/
def exTd : TicketData :=
  ⟨12, "Alice", "x", ⟨"T", "C", "D", "H", "L", "B", "U"⟩⟩

/-- The concrete render of the scenario. -/
def exRun : Except Err (Image × List DrawOp) :=
  generate_ticket (TicketGenerator.init exCfg exFS "icons") exFS exMeasure "bg" exTd

/-- The image-and-trace pair produced by the concrete render. -/
def exPair : Image × List DrawOp :=
  exRun.toOption.getD (⟨.RGB, 0, 0, none⟩, [])

/-- An empty file system. -/
def noFS : FS := fun _ => none

/-- A 3 by 1 target configuration whose centred crop box lands on
half-integer coordinates for a 6 by 1 background. -/
def cfgOdd : TicketConfig := { width := 3, height := 1 }

/-- A 6 by 1 background for `cfgOdd`. -/
def fsOdd : FS := fun p => if p = "bg" then some ⟨.RGB, 6, 1, none⟩ else none

/-- A 4 by 2 target configuration with even crop overflow for an 8 by 2
background. -/
def cfgEven : TicketConfig := { width := 4, height := 2 }

/-- An 8 by 2 background for `cfgEven`. -/
def fsEven : FS := fun p => if p = "bg" then some ⟨.RGB, 8, 2, none⟩ else none

/-- The processed background of the even-overflow scenario. -/
def imgEven : Image :=
  (process_background cfgEven fsEven "bg").toOption.getD ⟨.RGB, 0, 0, none⟩

/-! ### Pipeline shape lemmas -/

theorem add_gradient_ok {cfg : TicketConfig} {t g : Image}
    (h : add_gradient cfg t = .ok g) :
    g = ⟨.RGBA, cfg.width, cfg.height, none⟩ := by
  unfold add_gradient alpha_composite at h
  split at h
  · rename_i hcond
    rw [Except.ok.injEq] at h
    subst h
    have hw : (Image.convert t .RGBA).width = cfg.width := hcond.2.2.1
    have hh : (Image.convert t .RGBA).height = cfg.height := hcond.2.2.2
    rw [hw, hh]
  · exact Except.noConfusion h

theorem add_qr_code_ok {cfg : TicketConfig} {fs : FS} {t r : Image} {d : String}
    (h : add_qr_code cfg fs t d = .ok r) :
    r = { t with uniform := none } := by
  simp only [add_qr_code] at h
  split at h
  · exact Except.noConfusion h
  · split at h
    · exact Except.noConfusion h
    · simp only [pasteMasked] at h
      split at h
      · exact Except.noConfusion h
      · rw [Except.ok.injEq] at h
        exact h.symm

theorem generate_ticket_ok {gen : TicketGenerator} {fs : FS} {measure : Measure}
    {p : String} {td : TicketData} {img : Image} {ops : List DrawOp}
    (h : generate_ticket gen fs measure p td = .ok (img, ops)) :
    img = ⟨.RGBA, gen.config.width, gen.config.height, none⟩ ∧
    ops = ticketOps gen measure td := by
  simp only [generate_ticket] at h
  split at h
  · exact Except.noConfusion h
  · split at h
    · exact Except.noConfusion h
    · rename_i t2 hgrad
      split at h
      · exact Except.noConfusion h
      · rename_i t4 hqr
        rw [Except.ok.injEq, Prod.mk.injEq] at h
        obtain ⟨h1, h2⟩ := h
        subst h1; subst h2
        refine ⟨?_, rfl⟩
        have := add_qr_code_ok hqr
        rw [this]
        have := add_gradient_ok hgrad
        rw [this]

/-! ### C1: final image dimensions -/

/-- C1: for every valid configuration (width > 0, height > 0) and every
TicketData, a successful call to `generate_ticket` returns an image whose
dimensions are exactly the configured (width, height). -/
theorem c1_dimensions (gen : TicketGenerator) (fs : FS) (measure : Measure)
    (p : String) (td : TicketData) (img : Image) (ops : List DrawOp)
    (_hw : 0 < gen.config.width) (_hh : 0 < gen.config.height)
    (h : generate_ticket gen fs measure p td = .ok (img, ops)) :
    img.width = gen.config.width ∧ img.height = gen.config.height := by
  rw [(generate_ticket_ok h).1]
  exact ⟨rfl, rfl⟩

/-- C1 witness: the concrete 4 by 3 scenario renders successfully to a
4 by 3 image. -/
theorem c1_witness : exPair.1.width = 4 ∧ exPair.1.height = 3 :=
  c1_dimensions (TicketGenerator.init exCfg exFS "icons") exFS exMeasure "bg" exTd
    exPair.1 exPair.2 (by decide) (by decide) (by rfl)

/-! ### C4: missing background is fatal -/

/-- C4: if the background file is missing or unreadable, `generate_ticket`
fails with the propagated open error and returns no image (no fallback
background is substituted). -/
theorem c4_missing_background (gen : TicketGenerator) (fs : FS) (measure : Measure)
    (p : String) (td : TicketData) (h : fs p = none) :
    generate_ticket gen fs measure p td = .error .ioError := by
  simp [generate_ticket, process_background, h]

/-- C4 witness: rendering against an empty file system fails with the
open error. -/
theorem c4_witness :
    generate_ticket (TicketGenerator.init exCfg noFS "icons") noFS exMeasure "bg" exTd
      = .error .ioError :=
  c4_missing_background _ _ _ _ _ rfl

/-! ### C9: determinism -/

/-- C9: rendering is deterministic: two calls of `generate_ticket` on
equal configurations, asset sets (file system, icons, fonts) and ticket
data produce equal results. -/
theorem c9_deterministic (gen gen' : TicketGenerator) (fs fs' : FS)
    (m m' : Measure) (p p' : String) (td td' : TicketData)
    (h1 : gen = gen') (h2 : fs = fs') (h3 : m = m') (h4 : p = p') (h5 : td = td') :
    generate_ticket gen fs m p td = generate_ticket gen' fs' m' p' td' := by
  subst h1; subst h2; subst h3; subst h4; subst h5; rfl

/-- C9 witness: the concrete scenario rendered twice gives the same
result. -/
theorem c9_witness :
    generate_ticket (TicketGenerator.init exCfg exFS "icons") exFS exMeasure "bg" exTd
      = generate_ticket (TicketGenerator.init exCfg exFS "icons") exFS exMeasure "bg" exTd :=
  c9_deterministic _ _ _ _ _ _ _ _ _ _ rfl rfl rfl rfl rfl

/-! ### C10: output image mode -/

/-- C10: every successful `generate_ticket` call returns an RGBA image
(the mode introduced by the gradient compositing step), and the
demonstration `__main__` block converts the result to RGB itself. -/
theorem c10_rgba_mode :
    (∀ (gen : TicketGenerator) (fs : FS) (measure : Measure) (p : String)
       (td : TicketData) (img : Image) (ops : List DrawOp),
       generate_ticket gen fs measure p td = .ok (img, ops) → img.mode = .RGBA) ∧
    (∀ (fs : FS) (measure : Measure) (img : Image),
       demo fs measure = .ok img → img.mode = .RGB) := by
  constructor
  · intro gen fs measure p td img ops h
    rw [(generate_ticket_ok h).1]
  · intro fs measure img h
    unfold demo at h
    cases hg : generate_ticket (TicketGenerator.init {} fs "icons") fs measure
        "./Mage4.jpg" demoTicketData with
    | error e => rw [hg] at h; exact Except.noConfusion h
    | ok r =>
      rw [hg] at h
      rw [Except.map, Except.ok.injEq] at h
      rw [← h]
      rfl

/-- C10 witness: the concrete render has RGBA mode. -/
theorem c10_witness : exPair.1.mode = .RGBA :=
  c10_rgba_mode.1 (TicketGenerator.init exCfg exFS "icons") exFS exMeasure "bg" exTd
    exPair.1 exPair.2 (by rfl)

/-! ### C8: the owner text field -/

/-- C8 counterexample: in a successful concrete render with owner
"Alice", the trace contains no text call "Owner: Alice", while the owner
field is drawn as "Propriétaire: Alice" (at the configured padding,
vertical offset 70, small font, colour (0,0,0)). -/
theorem c8_counterexample :
    exRun.toOption.map (fun r =>
      (decide (DrawOp.text 1 70 ("Owner: " ++ "Alice") .small (0, 0, 0) ∈ r.2),
       decide (DrawOp.text 1 70 ("Propriétaire: " ++ "Alice") .small (0, 0, 0) ∈ r.2)))
      = some (false, true) := by decide

/-- C8 amended: for every TicketData, `generate_ticket` draws the owner
field as the text "Propriétaire: {owner}" at vertical offset 70 from the
top, left margin equal to the configured padding, in the small font, with
colour (0, 0, 0). -/
theorem c8_owner_field (gen : TicketGenerator) (fs : FS) (measure : Measure)
    (p : String) (td : TicketData) (img : Image) (ops : List DrawOp)
    (h : generate_ticket gen fs measure p td = .ok (img, ops)) :
    DrawOp.text gen.config.padding 70 ("Propriétaire: " ++ td.owner) .small (0, 0, 0) ∈ ops := by
  rw [(generate_ticket_ok h).2]
  unfold ticketOps
  simp

/-- C8 witness: the concrete render draws "Propriétaire: Alice" at
(1, 70) in the small font in black. -/
theorem c8_witness :
    DrawOp.text 1 70 ("Propriétaire: " ++ "Alice") .small (0, 0, 0) ∈ exPair.2 :=
  c8_owner_field (TicketGenerator.init exCfg exFS "icons") exFS exMeasure "bg" exTd
    exPair.1 exPair.2 (by rfl)

/-! ### C3: gradient alpha profile -/

theorem gradientAlpha_eq (w i : Nat) (hw : 0 < w) (hi : i ≤ w) :
    gradientAlpha w i = 255 * (w - i) / w := by
  unfold gradientAlpha
  have hw' : ((w : ℚ)) ≠ 0 := Nat.cast_ne_zero.mpr hw.ne'
  have hexpr : (255 : ℚ) * (1 - (i : ℚ) / (w : ℚ))
      = ((255 * (w - i) : ℕ) : ℚ) / ((w : ℕ) : ℚ) := by
    push_cast [Nat.cast_sub hi]
    field_simp
  rw [hexpr, Int.floor_toNat, Nat.floor_div_nat, Nat.floor_natCast]

/-- C3: for every canvas width > 0, the alpha drawn at column 0 is 255;
the alpha at column i equals `int(255 * (1 - i / width))`, which is
`255 * (width - i) / width` in integer arithmetic; alpha is non-increasing
in the column index; the alpha at the last column is `255 / width`
(0 whenever width > 255); and the loop of `add_gradient` draws column i
with fill `(255, 255, 255, alpha i)`. -/
theorem c3_gradient (w : Nat) (hw : 0 < w) :
    gradientAlpha w 0 = 255 ∧
    (∀ i, i ≤ w → gradientAlpha w i = 255 * (w - i) / w) ∧
    (∀ i j, i ≤ j → j ≤ w → gradientAlpha w j ≤ gradientAlpha w i) ∧
    gradientAlpha w (w - 1) = 255 / w ∧
    (∀ cfg : TicketConfig, cfg.width = w → ∀ i, i < w →
       (gradientLineOps cfg)[i]? = some (i, (255, 255, 255, gradientAlpha w i))) := by
  refine ⟨?_, fun i hi => gradientAlpha_eq w i hw hi, ?_, ?_, ?_⟩
  · rw [gradientAlpha_eq w 0 hw (Nat.zero_le w), Nat.sub_zero,
      Nat.mul_div_cancel _ hw]
  · intro i j hij hj
    rw [gradientAlpha_eq w i hw (le_trans hij hj), gradientAlpha_eq w j hw hj]
    exact Nat.div_le_div_right (Nat.mul_le_mul_left _ (Nat.sub_le_sub_left hij w))
  · rw [gradientAlpha_eq w (w - 1) hw (Nat.sub_le w 1)]
    have : w - (w - 1) = 1 := by omega
    rw [this, Nat.mul_one]
  · intro cfg hcfg i hi
    subst hcfg
    simp [gradientLineOps, List.getElem?_range hi]

/-- C3 witness: for width 4 the gradient alphas are 255 at column 0 and
63 at the last column. -/
theorem c3_witness : gradientAlpha 4 0 = 255 ∧ gradientAlpha 4 3 = 63 := by
  refine ⟨(c3_gradient 4 (by norm_num)).1, ?_⟩
  have h := (c3_gradient 4 (by norm_num)).2.1 3 (by norm_num)
  simpa using h

/-! ### C5: icon loading degrades gracefully and independently -/

theorem load_icons_eq (cfg : TicketConfig) (fs : FS) (folder name file : String)
    (hl : iconFiles.lookup name = some file) :
    load_icons cfg fs folder name = load_icon cfg fs folder file := by
  unfold load_icons
  rw [hl]

theorem load_icons_mode (cfg : TicketConfig) (fs : FS) (folder nm : String) :
    (load_icons cfg fs folder nm).mode = .RGBA := by
  unfold load_icons
  cases iconFiles.lookup nm with
  | none => rfl
  | some file =>
    show (load_icon cfg fs folder file).mode = .RGBA
    unfold load_icon
    cases fs (folder ++ "/" ++ file) with
    | none => rfl
    | some icon => rfl

theorem draw_icon_congr (cfg : TicketConfig) (fs fs' : FS) (folder : String)
    (x y : Int) (ty s : String) :
    draw_icon_with_text (TicketGenerator.init cfg fs folder) x y ty s =
    draw_icon_with_text (TicketGenerator.init cfg fs' folder) x y ty s := by
  simp only [draw_icon_with_text, TicketGenerator.init, hasAlphaBand, load_icons_mode]

/-- C5: each of the four icons degrades independently: a missing icon
file is replaced by a fully transparent RGBA image of the configured icon
size; loading one icon depends only on that icon's file; the rendering
result does not depend on the icon files at all (only on the background
and logo paths); and a successful render returns an image of the
configured dimensions. -/
theorem c5_icon_fallback (cfg : TicketConfig) (fs fs' : FS) (folder : String) :
    (∀ name file, (name, file) ∈ iconFiles →
        fs (folder ++ "/" ++ file) = none →
        load_icons cfg fs folder name
          = Image.new .RGBA cfg.icon_size cfg.icon_size (0, 0, 0, 0)) ∧
    (∀ name file, (name, file) ∈ iconFiles →
        fs (folder ++ "/" ++ file) = fs' (folder ++ "/" ++ file) →
        load_icons cfg fs folder name = load_icons cfg fs' folder name) ∧
    (∀ (measure : Measure) (p : String) (td : TicketData),
        fs p = fs' p → fs "./EVNTia.png" = fs' "./EVNTia.png" →
        generate_ticket (TicketGenerator.init cfg fs folder) fs measure p td
          = generate_ticket (TicketGenerator.init cfg fs' folder) fs' measure p td) ∧
    (∀ (measure : Measure) (p : String) (td : TicketData) (img : Image) (ops : List DrawOp),
        generate_ticket (TicketGenerator.init cfg fs folder) fs measure p td = .ok (img, ops) →
        img.width = cfg.width ∧ img.height = cfg.height) := by
  refine ⟨?_, ?_, ?_, ?_⟩
  · intro name file hmem hnone
    have hdisj : name = "calendar" ∧ file = "calendar.png" ∨
        name = "clock" ∧ file = "clock.png" ∨
        name = "map" ∧ file = "map.png" ∨
        name = "ticket" ∧ file = "ticket.png" := by
      simpa [iconFiles] using hmem
    rcases hdisj with ⟨rfl, rfl⟩ | ⟨rfl, rfl⟩ | ⟨rfl, rfl⟩ | ⟨rfl, rfl⟩
    · rw [load_icons_eq cfg fs folder "calendar" "calendar.png" rfl]
      unfold load_icon
      rw [hnone]
    · rw [load_icons_eq cfg fs folder "clock" "clock.png" rfl]
      unfold load_icon
      rw [hnone]
    · rw [load_icons_eq cfg fs folder "map" "map.png" rfl]
      unfold load_icon
      rw [hnone]
    · rw [load_icons_eq cfg fs folder "ticket" "ticket.png" rfl]
      unfold load_icon
      rw [hnone]
  · intro name file hmem heq
    have hdisj : name = "calendar" ∧ file = "calendar.png" ∨
        name = "clock" ∧ file = "clock.png" ∨
        name = "map" ∧ file = "map.png" ∨
        name = "ticket" ∧ file = "ticket.png" := by
      simpa [iconFiles] using hmem
    rcases hdisj with ⟨rfl, rfl⟩ | ⟨rfl, rfl⟩ | ⟨rfl, rfl⟩ | ⟨rfl, rfl⟩
    · rw [load_icons_eq cfg fs folder "calendar" "calendar.png" rfl,
        load_icons_eq cfg fs' folder "calendar" "calendar.png" rfl]
      unfold load_icon
      rw [heq]
    · rw [load_icons_eq cfg fs folder "clock" "clock.png" rfl,
        load_icons_eq cfg fs' folder "clock" "clock.png" rfl]
      unfold load_icon
      rw [heq]
    · rw [load_icons_eq cfg fs folder "map" "map.png" rfl,
        load_icons_eq cfg fs' folder "map" "map.png" rfl]
      unfold load_icon
      rw [heq]
    · rw [load_icons_eq cfg fs folder "ticket" "ticket.png" rfl,
        load_icons_eq cfg fs' folder "ticket" "ticket.png" rfl]
      unfold load_icon
      rw [heq]
  · intro measure p td hbg hlogo
    have hpb : process_background cfg fs p = process_background cfg fs' p := by
      unfold process_background
      rw [hbg]
    have hqr : ∀ t d, add_qr_code cfg fs t d = add_qr_code cfg fs' t d := by
      intro t d
      unfold add_qr_code
      rw [hlogo]
    have hrow : ∀ (x y : Int) (ty s : String),
        draw_icon_with_text (⟨cfg, load_icons cfg fs folder⟩ : TicketGenerator) x y ty s =
        draw_icon_with_text (⟨cfg, load_icons cfg fs' folder⟩ : TicketGenerator) x y ty s :=
      fun x y ty s => draw_icon_congr cfg fs fs' folder x y ty s
    have hops : ticketOps (⟨cfg, load_icons cfg fs folder⟩ : TicketGenerator) measure td
        = ticketOps (⟨cfg, load_icons cfg fs' folder⟩ : TicketGenerator) measure td := by
      simp only [ticketOps, hrow]
    show generate_ticket ⟨cfg, load_icons cfg fs folder⟩ fs measure p td
        = generate_ticket ⟨cfg, load_icons cfg fs' folder⟩ fs' measure p td
    simp only [generate_ticket, hpb, hqr, hops]
  · intro measure p td img ops h
    rw [(generate_ticket_ok h).1]
    exact ⟨rfl, rfl⟩

/-- C5 witness: with no icon files present, the calendar icon is the
fully transparent 2 by 2 placeholder, and the concrete scenario (whose
file system has no icons) still renders at the configured size. -/
theorem c5_witness :
    load_icons exCfg exFS "icons" "calendar" = Image.new .RGBA 2 2 (0, 0, 0, 0) ∧
    exPair.1.width = 4 ∧ exPair.1.height = 3 :=
  ⟨(c5_icon_fallback exCfg exFS exFS "icons").1 "calendar" "calendar.png"
      (by simp [iconFiles]) (by decide),
   (c5_icon_fallback exCfg exFS exFS "icons").2.2.2 exMeasure "bg" exTd
      exPair.1 exPair.2 (by rfl)⟩

/-! ### C6: QR capacity handling and logo errors -/

theorem capacityH_le (v : Nat) : capacityH v ≤ 1273 := by
  unfold capacityH
  rcases Nat.lt_or_ge (v - 1) 40 with h | h
  · have hall : ∀ n, n < 40 → byteCapacityH.getD n 0 ≤ 1273 := by decide
    exact hall _ h
  · rw [List.getD_eq_default _ _ (by simp [byteCapacityH]; omega)]
    exact Nat.zero_le _

theorem bestFit_bounds {len v : Nat} (h : bestFit len = some v) :
    2 ≤ v ∧ v ≤ 40 ∧ len ≤ capacityH v := by
  unfold bestFit at h
  have hmem := List.mem_of_find?_eq_some h
  have hp := List.find?_some h
  rw [List.mem_range'_1] at hmem
  exact ⟨hmem.1, by omega, by simpa using hp⟩

theorem bestFit_exists {len : Nat} (h : len ≤ 1273) : ∃ v, bestFit len = some v := by
  rw [← Option.isSome_iff_exists]
  unfold bestFit
  rw [List.find?_isSome]
  refine ⟨40, by decide, ?_⟩
  have hc : capacityH 40 = 1273 := rfl
  simp only [hc, decide_eq_true_eq]
  exact h

theorem bestFit_overflow {len : Nat} (h : 1273 < len) : bestFit len = none := by
  unfold bestFit
  rw [List.find?_eq_none]
  intro v _
  simp only [decide_eq_true_eq]
  intro hle
  exact absurd (le_trans hle (capacityH_le v)) (by omega)

theorem add_qr_code_overflow (cfg : TicketConfig) (fs : FS) (t : Image) (d : String)
    (h : 1273 < d.utf8ByteSize) :
    add_qr_code cfg fs t d = .error .dataOverflow := by
  simp only [add_qr_code]
  rw [bestFit_overflow h]

/-- C6 counterexample: the demonstration payload
"https://evntia.tech/event/12" is 28 bytes, which exceeds the 14-byte
ECC-H capacity of the fixed version 2, yet `add_qr_code` succeeds:
`make(fit=True)` silently selects a larger version instead of failing. -/
theorem c6_counterexample :
    capacityH 2 = 14 ∧
    "https://evntia.tech/event/12".utf8ByteSize = 28 ∧
    (add_qr_code {} exFS ⟨.RGBA, 1202, 450, none⟩
        "https://evntia.tech/event/12").toOption.isSome = true := by
  decide

/-- C6 amended: `add_qr_code` raises a data-overflow error exactly when
the payload exceeds the ECC-H capacity of version 40 (1273 bytes), the
largest version `make(fit=True)` may select upward from the configured
version 2; a payload that fits some version in 2..40 is encoded (with an
RGBA logo present the call succeeds); a missing logo asset is a fatal
error; and an overflowing payload makes `generate_ticket` fail as well. -/
theorem c6_qr_capacity (cfg : TicketConfig) (fs : FS) (t : Image) (data : String) :
    (1273 < data.utf8ByteSize →
        add_qr_code cfg fs t data = .error .dataOverflow) ∧
    (data.utf8ByteSize ≤ 1273 →
        ∃ v, bestFit data.utf8ByteSize = some v ∧ 2 ≤ v ∧ v ≤ 40 ∧
          data.utf8ByteSize ≤ capacityH v) ∧
    (fs "./EVNTia.png" = none →
        ∀ img, add_qr_code cfg fs t data ≠ .ok img) ∧
    (data.utf8ByteSize ≤ 1273 → fs "./EVNTia.png" = none →
        add_qr_code cfg fs t data = .error .ioError) ∧
    (∀ logo, fs "./EVNTia.png" = some logo → logo.mode = .RGBA →
        data.utf8ByteSize ≤ 1273 →
        ∃ img, add_qr_code cfg fs t data = .ok img) ∧
    (∀ (gen : TicketGenerator) (measure : Measure) (p : String) (td : TicketData),
        1273 < td.qr_data.utf8ByteSize →
        ∀ img ops, generate_ticket gen fs measure p td ≠ .ok (img, ops)) := by
  refine ⟨fun h => add_qr_code_overflow cfg fs t data h, ?_, ?_, ?_, ?_, ?_⟩
  · intro h
    obtain ⟨v, hv⟩ := bestFit_exists h
    have hb := bestFit_bounds hv
    exact ⟨v, hv, hb.1, hb.2.1, hb.2.2⟩
  · intro hlogo img hok
    simp only [add_qr_code] at hok
    cases hbf : bestFit data.utf8ByteSize with
    | none =>
      rw [hbf] at hok
      exact Except.noConfusion hok
    | some v =>
      rw [hbf, hlogo] at hok
      exact Except.noConfusion hok
  · intro h hlogo
    obtain ⟨v, hv⟩ := bestFit_exists h
    simp only [add_qr_code]
    rw [hv, hlogo]
  · intro logo hlogo hmode h
    obtain ⟨v, hv⟩ := bestFit_exists h
    simp only [add_qr_code]
    rw [hv, hlogo]
    have hc : (logo.resize 80 40).mode = Mode.RGBA ∨ (logo.resize 80 40).mode = Mode.LA ∨
        (logo.resize 80 40).mode = Mode.L ∨ (logo.resize 80 40).mode = Mode.one :=
      Or.inl (by rw [show (logo.resize 80 40).mode = logo.mode from rfl, hmode])
    simp only [pasteMasked]
    rw [if_pos hc]
    exact ⟨_, rfl⟩
  · intro gen measure p td hlen img ops hok
    simp only [generate_ticket] at hok
    split at hok
    · exact Except.noConfusion hok
    · split at hok
      · exact Except.noConfusion hok
      · split at hok
        · exact Except.noConfusion hok
        · rename_i t4 hqr
          rw [add_qr_code_overflow _ _ _ _ hlen] at hqr
          exact Except.noConfusion hqr

/-- C6 witness: a small payload with a missing logo fails with the open
error. -/
theorem c6_witness :
    add_qr_code exCfg noFS ⟨.RGB, 1, 1, none⟩ "x" = .error .ioError :=
  (c6_qr_capacity exCfg noFS ⟨.RGB, 1, 1, none⟩ "x").2.2.2.1 (by decide) rfl

/-! ### C2: background fit-and-crop -/

theorem pyRound_intCast (n : Int) : pyRound ((n : ℤ) : ℚ) = n := by
  unfold pyRound
  rw [Int.floor_intCast]
  norm_num

theorem pyRound_natCast (n : Nat) : pyRound ((n : ℕ) : ℚ) = (n : ℤ) := by
  unfold pyRound
  rw [Int.floor_natCast]
  norm_num

theorem cropCentered_even {cfg : TicketConfig} {im : Image}
    (hwle : cfg.width ≤ im.width) (hhle : cfg.height ≤ im.height)
    (hwe : 2 ∣ (im.width - cfg.width)) (hhe : 2 ∣ (im.height - cfg.height)) :
    (cropCentered cfg im).width = cfg.width ∧
    (cropCentered cfg im).height = cfg.height ∧
    (cropCentered cfg im).mode = im.mode := by
  obtain ⟨k, hk⟩ := hwe
  obtain ⟨m, hm⟩ := hhe
  have hW : ((im.width : ℚ) - (cfg.width : ℚ)) / 2 = ((k : ℕ) : ℚ) := by
    have h : im.width = cfg.width + 2 * k := by omega
    rw [h]; push_cast; ring
  have hH : ((im.height : ℚ) - (cfg.height : ℚ)) / 2 = ((m : ℕ) : ℚ) := by
    have h : im.height = cfg.height + 2 * m := by omega
    rw [h]; push_cast; ring
  refine ⟨?_, ?_, rfl⟩
  · show (pyRound (((im.width : ℚ) - (cfg.width : ℚ)) / 2 + (cfg.width : ℚ))
      - pyRound (((im.width : ℚ) - (cfg.width : ℚ)) / 2)).toNat = cfg.width
    rw [hW, ← Nat.cast_add, pyRound_natCast, pyRound_natCast]
    omega
  · show (pyRound (((im.height : ℚ) - (cfg.height : ℚ)) / 2 + (cfg.height : ℚ))
      - pyRound (((im.height : ℚ) - (cfg.height : ℚ)) / 2)).toNat = cfg.height
    rw [hH, ← Nat.cast_add, pyRound_natCast, pyRound_natCast]
    omega

theorem trims_even (target scaled : Nat) (hle : target ≤ scaled)
    (he : 2 ∣ (scaled - target)) :
    leftTrim target scaled = rightTrim target scaled := by
  obtain ⟨k, hk⟩ := he
  have hs : scaled = target + 2 * k := by omega
  subst hs
  unfold leftTrim rightTrim
  have hq : (((target + 2 * k : ℕ) : ℚ) - (target : ℚ)) / 2 = ((k : ℕ) : ℚ) := by
    push_cast; ring
  rw [hq, ← Nat.cast_add, pyRound_natCast, pyRound_natCast]
  omega

theorem natfloor_bracket (x : ℚ) (n : ℕ) (hx : (n : ℚ) ≤ x) :
    n ≤ (⌊x⌋).toNat ∧ (((⌊x⌋).toNat : ℕ) : ℚ) ≤ x ∧ x < (((⌊x⌋).toNat : ℕ) : ℚ) + 1 := by
  have hfl : (n : ℤ) ≤ ⌊x⌋ := Int.le_floor.mpr (by exact_mod_cast hx)
  have hfl0 : 0 ≤ ⌊x⌋ := le_trans (Int.natCast_nonneg n) hfl
  have hcast : (((⌊x⌋).toNat : ℕ) : ℚ) = ((⌊x⌋ : ℤ) : ℚ) := by
    exact_mod_cast Int.toNat_of_nonneg hfl0
  refine ⟨?_, ?_, ?_⟩
  · calc n = ((n : ℤ)).toNat := by simp
      _ ≤ (⌊x⌋).toNat := Int.toNat_le_toNat hfl
  · rw [hcast]; exact Int.floor_le x
  · rw [hcast]; exact Int.lt_floor_add_one x

theorem pbScaledSize_spec (cfg : TicketConfig) (bgw bgh : Nat)
    (hbw : 0 < bgw) (hbh : 0 < bgh) (hw : 0 < cfg.width) (hh : 0 < cfg.height) :
    cfg.width ≤ (pbScaledSize cfg bgw bgh).1 ∧
    cfg.height ≤ (pbScaledSize cfg bgw bgh).2 ∧
    ((cfg.width : ℚ) / (cfg.height : ℚ) < (bgw : ℚ) / (bgh : ℚ) →
       (pbScaledSize cfg bgw bgh).2 = cfg.height ∧
       (((pbScaledSize cfg bgw bgh).1 : ℚ) ≤ (cfg.height : ℚ) * ((bgw : ℚ) / (bgh : ℚ)) ∧
        (cfg.height : ℚ) * ((bgw : ℚ) / (bgh : ℚ)) < ((pbScaledSize cfg bgw bgh).1 : ℚ) + 1)) ∧
    (¬ ((cfg.width : ℚ) / (cfg.height : ℚ) < (bgw : ℚ) / (bgh : ℚ)) →
       (pbScaledSize cfg bgw bgh).1 = cfg.width ∧
       (((pbScaledSize cfg bgw bgh).2 : ℚ) ≤ (cfg.width : ℚ) / ((bgw : ℚ) / (bgh : ℚ)) ∧
        (cfg.width : ℚ) / ((bgw : ℚ) / (bgh : ℚ)) < ((pbScaledSize cfg bgw bgh).2 : ℚ) + 1)) := by
  have hA : (0 : ℚ) < (bgw : ℚ) / (bgh : ℚ) := by
    have h1 : (0 : ℚ) < (bgw : ℚ) := by exact_mod_cast hbw
    have h2 : (0 : ℚ) < (bgh : ℚ) := by exact_mod_cast hbh
    exact div_pos h1 h2
  have hH : (0 : ℚ) < (cfg.height : ℚ) := by exact_mod_cast hh
  by_cases hc : (cfg.width : ℚ) / (cfg.height : ℚ) < (bgw : ℚ) / (bgh : ℚ)
  · have hWle : (cfg.width : ℚ) ≤ (cfg.height : ℚ) * ((bgw : ℚ) / (bgh : ℚ)) := by
      have h := (div_lt_iff₀ hH).mp hc
      nlinarith [h]
    have key := natfloor_bracket _ cfg.width hWle
    have hps : pbScaledSize cfg bgw bgh
        = ((⌊(cfg.height : ℚ) * ((bgw : ℚ) / (bgh : ℚ))⌋).toNat, cfg.height) := by
      simp only [pbScaledSize, if_pos hc]
    rw [hps]
    exact ⟨key.1, le_refl _, fun _ => ⟨rfl, key.2.1, key.2.2⟩, fun hnc => absurd hc hnc⟩
  · have hAle : (bgw : ℚ) / (bgh : ℚ) ≤ (cfg.width : ℚ) / (cfg.height : ℚ) := le_of_not_lt hc
    have hHle : (cfg.height : ℚ) ≤ (cfg.width : ℚ) / ((bgw : ℚ) / (bgh : ℚ)) := by
      rw [le_div_iff₀ hA]
      have h := (le_div_iff₀ hH).mp hAle
      nlinarith [h]
    have key := natfloor_bracket _ cfg.height hHle
    have hps : pbScaledSize cfg bgw bgh
        = (cfg.width, (⌊(cfg.width : ℚ) / ((bgw : ℚ) / (bgh : ℚ))⌋).toNat) := by
      simp only [pbScaledSize, if_neg hc]
    rw [hps]
    exact ⟨le_refl _, key.1, fun hc2 => absurd hc2 hc, fun _ => ⟨rfl, key.2.1, key.2.2⟩⟩

theorem process_background_eq (cfg : TicketConfig) (fs : FS) (path : String) (bg : Image)
    (hfs : fs path = some bg) (hbh : bg.height ≠ 0) (hch : cfg.height ≠ 0)
    (hbw : bg.width ≠ 0) :
    process_background cfg fs path
      = .ok (cropCentered cfg (bg.resize (pbScaledSize cfg bg.width bg.height).1
          (pbScaledSize cfg bg.width bg.height).2)) := by
  simp only [process_background, hfs]
  rw [if_neg (by simp [hbh, hch]), if_neg hbw]

theorem pbScaledSize_odd : pbScaledSize cfgOdd 6 1 = (6, 1) := by
  simp only [pbScaledSize, cfgOdd]
  norm_num
  omega

theorem pbScaledSize_even : pbScaledSize cfgEven 8 2 = (8, 2) := by
  simp only [pbScaledSize, cfgEven]
  norm_num
  omega

theorem pyRound_32 : pyRound ((3 : ℚ) / 2) = 2 := by
  have h : ⌊(3 : ℚ) / 2⌋ = 1 := by norm_num
  unfold pyRound
  rw [h]
  norm_num

theorem pyRound_92 : pyRound ((9 : ℚ) / 2) = 4 := by
  have h : ⌊(9 : ℚ) / 2⌋ = 4 := by norm_num
  unfold pyRound
  rw [h]
  norm_num

theorem pyRound_zero : pyRound (0 : ℚ) = 0 := by
  unfold pyRound
  norm_num

theorem pyRound_one : pyRound (1 : ℚ) = 1 := by
  unfold pyRound
  norm_num

/-- C2 counterexample: for the valid 3 by 1 target and a 6 by 1 source,
the scaled size is 6 by 1 and the centred crop box is (1.5, 0, 4.5, 1);
Python's round-half-to-even sends it to (2, 0, 4, 1), so
`process_background` returns a 2 by 1 image, not the exact 3 by 1 target
size (and the trims, 2 and 2, leave only 2 of the 3 target columns). -/
theorem c2_counterexample :
    0 < cfgOdd.width ∧ 0 < cfgOdd.height ∧
    (process_background cfgOdd fsOdd "bg").toOption.map (fun im => (im.width, im.height))
      = some (2, 1) ∧ (2, 1) ≠ (cfgOdd.width, cfgOdd.height) := by
  refine ⟨by decide, by decide, ?_, by decide⟩
  rw [process_background_eq cfgOdd fsOdd "bg" ⟨.RGB, 6, 1, none⟩ rfl (by decide)
    (by decide) (by decide)]
  have hcw : cfgOdd.width = 3 := rfl
  have hch : cfgOdd.height = 1 := rfl
  norm_num [cropCentered, crop, Image.resize, pbScaledSize_odd, pyRound_32, pyRound_92,
    pyRound_zero, pyRound_one, hcw, hch, Except.toOption]
  omega

/-- C2 amended: under the original hypotheses plus the evenness of the
crop overflow on each axis (so that the half-overflow crop coordinates
are integral), `process_background` scales the source uniformly to cover
the target rectangle — matching height and overscaling width (to
`int(height * aspect)`, within one of exact aspect preservation) when the
source aspect ratio exceeds the target's, else matching width and
overscaling height — and centre-crops to exactly width by height with
equal trim on both sides of each axis.  When the overflow on the
overscaled axis is odd, the rounded crop coordinates can change the
output size, as the counterexample shows. -/
theorem c2_fit_and_crop (cfg : TicketConfig) (fs : FS) (path : String) (bg img : Image)
    (hfs : fs path = some bg) (hbw : 0 < bg.width) (hbh : 0 < bg.height)
    (hw : 0 < cfg.width) (hh : 0 < cfg.height)
    (he1 : 2 ∣ ((pbScaledSize cfg bg.width bg.height).1 - cfg.width))
    (he2 : 2 ∣ ((pbScaledSize cfg bg.width bg.height).2 - cfg.height))
    (hpb : process_background cfg fs path = .ok img) :
    img.width = cfg.width ∧ img.height = cfg.height ∧ img.mode = bg.mode ∧
    cfg.width ≤ (pbScaledSize cfg bg.width bg.height).1 ∧
    cfg.height ≤ (pbScaledSize cfg bg.width bg.height).2 ∧
    ((cfg.width : ℚ) / (cfg.height : ℚ) < (bg.width : ℚ) / (bg.height : ℚ) →
       (pbScaledSize cfg bg.width bg.height).2 = cfg.height ∧
       (((pbScaledSize cfg bg.width bg.height).1 : ℚ)
           ≤ (cfg.height : ℚ) * ((bg.width : ℚ) / (bg.height : ℚ)) ∧
        (cfg.height : ℚ) * ((bg.width : ℚ) / (bg.height : ℚ))
           < ((pbScaledSize cfg bg.width bg.height).1 : ℚ) + 1)) ∧
    (¬ ((cfg.width : ℚ) / (cfg.height : ℚ) < (bg.width : ℚ) / (bg.height : ℚ)) →
       (pbScaledSize cfg bg.width bg.height).1 = cfg.width ∧
       (((pbScaledSize cfg bg.width bg.height).2 : ℚ)
           ≤ (cfg.width : ℚ) / ((bg.width : ℚ) / (bg.height : ℚ)) ∧
        (cfg.width : ℚ) / ((bg.width : ℚ) / (bg.height : ℚ))
           < ((pbScaledSize cfg bg.width bg.height).2 : ℚ) + 1)) ∧
    leftTrim cfg.width (pbScaledSize cfg bg.width bg.height).1
      = rightTrim cfg.width (pbScaledSize cfg bg.width bg.height).1 ∧
    leftTrim cfg.height (pbScaledSize cfg bg.width bg.height).2
      = rightTrim cfg.height (pbScaledSize cfg bg.width bg.height).2 := by
  have hspec := pbScaledSize_spec cfg bg.width bg.height hbw hbh hw hh
  rw [process_background_eq cfg fs path bg hfs (by omega) (by omega) (by omega)] at hpb
  rw [Except.ok.injEq] at hpb
  subst hpb
  have hcc := @cropCentered_even cfg
    (bg.resize (pbScaledSize cfg bg.width bg.height).1
      (pbScaledSize cfg bg.width bg.height).2)
    hspec.1 hspec.2.1 he1 he2
  exact ⟨hcc.1, hcc.2.1, hcc.2.2, hspec.1, hspec.2.1, hspec.2.2.1, hspec.2.2.2,
    trims_even _ _ hspec.1 he1, trims_even _ _ hspec.2.1 he2⟩

/-- C2 witness: the 4 by 2 target with an 8 by 2 source has even
overflow; the processed background is exactly 4 by 2. -/
theorem c2_witness : imgEven.width = 4 ∧ imgEven.height = 2 := by
  have h := c2_fit_and_crop cfgEven fsEven "bg" ⟨.RGB, 8, 2, none⟩ imgEven rfl
    (by decide) (by decide) (by decide) (by decide)
    (by
      have hps : pbScaledSize cfgEven (Image.mk .RGB 8 2 none).width
          (Image.mk .RGB 8 2 none).height = (8, 2) := pbScaledSize_even
      rw [hps]
      decide)
    (by
      have hps : pbScaledSize cfgEven (Image.mk .RGB 8 2 none).width
          (Image.mk .RGB 8 2 none).height = (8, 2) := pbScaledSize_even
      rw [hps]
      decide)
    (by rfl)
  exact ⟨h.1, h.2.1⟩

/-! ### C7: the rounded rectangle primitive -/

theorem pieTL (x1 y1 r x y : Int) (f : Nat × Nat × Nat) (hr : 0 < r) :
    opFills (.pieslice x1 y1 (x1 + r * 2) (y1 + r * 2) 180 270 f) (x, y) ↔
      ((x - (x1 + r)) ^ 2 + (y - (y1 + r)) ^ 2 ≤ r ^ 2 ∧ x ≤ x1 + r ∧ y ≤ y1 + r) := by
  simp only [opFills, inEllipse, inSector]
  constructor
  · rintro ⟨⟨hx0, hx1, hy0, hy1⟩, hell, hsec⟩
    refine ⟨?_, ?_, ?_⟩
    · have h16 : (0 : ℤ) < 16 * r ^ 2 := by positivity
      have key : 16 * r ^ 2 * ((x - (x1 + r)) ^ 2 + (y - (y1 + r)) ^ 2)
          ≤ 16 * r ^ 2 * r ^ 2 := by nlinarith [hell]
      exact le_of_mul_le_mul_left key h16
    · rcases hsec with ⟨_, _, hsx, _⟩ | ⟨h, _⟩ | ⟨h, _⟩ | ⟨h, _⟩ <;> omega
    · rcases hsec with ⟨_, _, _, hsy⟩ | ⟨h, _⟩ | ⟨h, _⟩ | ⟨h, _⟩ <;> omega
  · rintro ⟨hd, hx, hy⟩
    refine ⟨⟨?_, by omega, ?_, by omega⟩, ?_, Or.inl ⟨trivial, trivial, by omega, by omega⟩⟩
    · nlinarith [hd, hr, sq_nonneg (y - (y1 + r)), sq_nonneg (x - x1)]
    · nlinarith [hd, hr, sq_nonneg (x - (x1 + r)), sq_nonneg (y - y1)]
    · nlinarith [mul_le_mul_of_nonneg_left hd (by positivity : (0 : ℤ) ≤ 16 * r ^ 2)]

theorem pieTR (x2 y1 r x y : Int) (f : Nat × Nat × Nat) (hr : 0 < r) :
    opFills (.pieslice (x2 - r * 2) y1 x2 (y1 + r * 2) 270 360 f) (x, y) ↔
      ((x - (x2 - r)) ^ 2 + (y - (y1 + r)) ^ 2 ≤ r ^ 2 ∧ x2 - r ≤ x ∧ y ≤ y1 + r) := by
  simp only [opFills, inEllipse, inSector]
  constructor
  · rintro ⟨⟨hx0, hx1, hy0, hy1⟩, hell, hsec⟩
    refine ⟨?_, ?_, ?_⟩
    · have h16 : (0 : ℤ) < 16 * r ^ 2 := by positivity
      have key : 16 * r ^ 2 * ((x - (x2 - r)) ^ 2 + (y - (y1 + r)) ^ 2)
          ≤ 16 * r ^ 2 * r ^ 2 := by nlinarith [hell]
      exact le_of_mul_le_mul_left key h16
    · rcases hsec with ⟨h, _⟩ | ⟨_, _, hsx, _⟩ | ⟨h, _⟩ | ⟨h, _⟩ <;> omega
    · rcases hsec with ⟨h, _⟩ | ⟨_, _, _, hsy⟩ | ⟨h, _⟩ | ⟨h, _⟩ <;> omega
  · rintro ⟨hd, hx, hy⟩
    refine ⟨⟨by omega, ?_, ?_, by omega⟩, ?_, Or.inr (Or.inl ⟨trivial, trivial, by omega, by omega⟩)⟩
    · nlinarith [hd, hr, sq_nonneg (y - (y1 + r)), sq_nonneg (x - x2)]
    · nlinarith [hd, hr, sq_nonneg (x - (x2 - r)), sq_nonneg (y - y1)]
    · nlinarith [mul_le_mul_of_nonneg_left hd (by positivity : (0 : ℤ) ≤ 16 * r ^ 2)]

theorem pieBL (x1 y2 r x y : Int) (f : Nat × Nat × Nat) (hr : 0 < r) :
    opFills (.pieslice x1 (y2 - r * 2) (x1 + r * 2) y2 90 180 f) (x, y) ↔
      ((x - (x1 + r)) ^ 2 + (y - (y2 - r)) ^ 2 ≤ r ^ 2 ∧ x ≤ x1 + r ∧ y2 - r ≤ y) := by
  simp only [opFills, inEllipse, inSector]
  constructor
  · rintro ⟨⟨hx0, hx1, hy0, hy1⟩, hell, hsec⟩
    refine ⟨?_, ?_, ?_⟩
    · have h16 : (0 : ℤ) < 16 * r ^ 2 := by positivity
      have key : 16 * r ^ 2 * ((x - (x1 + r)) ^ 2 + (y - (y2 - r)) ^ 2)
          ≤ 16 * r ^ 2 * r ^ 2 := by nlinarith [hell]
      exact le_of_mul_le_mul_left key h16
    · rcases hsec with ⟨h, _⟩ | ⟨h, _⟩ | ⟨_, _, hsx, _⟩ | ⟨h, _⟩ <;> omega
    · rcases hsec with ⟨h, _⟩ | ⟨h, _⟩ | ⟨_, _, _, hsy⟩ | ⟨h, _⟩ <;> omega
  · rintro ⟨hd, hx, hy⟩
    refine ⟨⟨?_, by omega, by omega, ?_⟩, ?_,
      Or.inr (Or.inr (Or.inl ⟨trivial, trivial, by omega, by omega⟩))⟩
    · nlinarith [hd, hr, sq_nonneg (y - (y2 - r)), sq_nonneg (x - x1)]
    · nlinarith [hd, hr, sq_nonneg (x - (x1 + r)), sq_nonneg (y - y2)]
    · nlinarith [mul_le_mul_of_nonneg_left hd (by positivity : (0 : ℤ) ≤ 16 * r ^ 2)]

theorem pieBR (x2 y2 r x y : Int) (f : Nat × Nat × Nat) (hr : 0 < r) :
    opFills (.pieslice (x2 - r * 2) (y2 - r * 2) x2 y2 0 90 f) (x, y) ↔
      ((x - (x2 - r)) ^ 2 + (y - (y2 - r)) ^ 2 ≤ r ^ 2 ∧ x2 - r ≤ x ∧ y2 - r ≤ y) := by
  simp only [opFills, inEllipse, inSector]
  constructor
  · rintro ⟨⟨hx0, hx1, hy0, hy1⟩, hell, hsec⟩
    refine ⟨?_, ?_, ?_⟩
    · have h16 : (0 : ℤ) < 16 * r ^ 2 := by positivity
      have key : 16 * r ^ 2 * ((x - (x2 - r)) ^ 2 + (y - (y2 - r)) ^ 2)
          ≤ 16 * r ^ 2 * r ^ 2 := by nlinarith [hell]
      exact le_of_mul_le_mul_left key h16
    · rcases hsec with ⟨h, _⟩ | ⟨h, _⟩ | ⟨h, _⟩ | ⟨_, _, hsx, _⟩ <;> omega
    · rcases hsec with ⟨h, _⟩ | ⟨h, _⟩ | ⟨h, _⟩ | ⟨_, _, _, hsy⟩ <;> omega
  · rintro ⟨hd, hx, hy⟩
    refine ⟨⟨by omega, ?_, by omega, ?_⟩, ?_,
      Or.inr (Or.inr (Or.inr ⟨trivial, trivial, by omega, by omega⟩))⟩
    · nlinarith [hd, hr, sq_nonneg (y - (y2 - r)), sq_nonneg (x - x2)]
    · nlinarith [hd, hr, sq_nonneg (x - (x2 - r)), sq_nonneg (y - y2)]
    · nlinarith [mul_le_mul_of_nonneg_left hd (by positivity : (0 : ℤ) ≤ 16 * r ^ 2)]

theorem rr_eq_ideal (x1 y1 x2 y2 r : Int) (f : Nat × Nat × Nat) (hr : 1 ≤ r)
    (hw : 2 * r ≤ x2 - x1) (hh : 2 * r ≤ y2 - y1) (p : Int × Int) :
    fillsAny (create_rounded_rectangle x1 y1 x2 y2 r f) p ↔
      idealRoundedRect x1 y1 x2 y2 r p := by
  obtain ⟨x, y⟩ := p
  have hmem : fillsAny (create_rounded_rectangle x1 y1 x2 y2 r f) (x, y) ↔
      (opFills (.rect (x1 + r) y1 (x2 - r) y2 f) (x, y) ∨
       opFills (.rect x1 (y1 + r) x2 (y2 - r) f) (x, y) ∨
       opFills (.pieslice x1 y1 (x1 + r * 2) (y1 + r * 2) 180 270 f) (x, y) ∨
       opFills (.pieslice (x2 - r * 2) y1 x2 (y1 + r * 2) 270 360 f) (x, y) ∨
       opFills (.pieslice x1 (y2 - r * 2) (x1 + r * 2) y2 90 180 f) (x, y) ∨
       opFills (.pieslice (x2 - r * 2) (y2 - r * 2) x2 y2 0 90 f) (x, y)) := by
    simp [fillsAny, create_rounded_rectangle, or_assoc]
  rw [hmem, pieTL x1 y1 r x y f (by omega), pieTR x2 y1 r x y f (by omega),
    pieBL x1 y2 r x y f (by omega), pieBR x2 y2 r x y f (by omega)]
  simp only [opFills]
  constructor
  · rintro (⟨h1, h2, h3, h4⟩ | ⟨h1, h2, h3, h4⟩ | ⟨hd, hx, hy⟩ | ⟨hd, hx, hy⟩ |
      ⟨hd, hx, hy⟩ | ⟨hd, hx, hy⟩)
    · exact ⟨by omega, by omega, h3, h4, fun hc => absurd hc.1 (by omega),
        fun hc => absurd hc.1 (by omega), fun hc => absurd hc.1 (by omega),
        fun hc => absurd hc.1 (by omega)⟩
    · exact ⟨h1, h2, by omega, by omega, fun hc => absurd hc.2 (by omega),
        fun hc => absurd hc.2 (by omega), fun hc => absurd hc.2 (by omega),
        fun hc => absurd hc.2 (by omega)⟩
    · refine ⟨?_, by omega, ?_, by omega, fun _ => hd, fun hc => absurd hc.1 (by omega),
        fun hc => absurd hc.2 (by omega), fun hc => absurd hc.1 (by omega)⟩
      · nlinarith [hd, hr, sq_nonneg (y - (y1 + r)), sq_nonneg (x - x1)]
      · nlinarith [hd, hr, sq_nonneg (x - (x1 + r)), sq_nonneg (y - y1)]
    · refine ⟨by omega, ?_, ?_, by omega, fun hc => absurd hc.1 (by omega), fun _ => hd,
        fun hc => absurd hc.2 (by omega), fun hc => absurd hc.2 (by omega)⟩
      · nlinarith [hd, hr, sq_nonneg (y - (y1 + r)), sq_nonneg (x - x2)]
      · nlinarith [hd, hr, sq_nonneg (x - (x2 - r)), sq_nonneg (y - y1)]
    · refine ⟨?_, by omega, by omega, ?_, fun hc => absurd hc.2 (by omega),
        fun hc => absurd hc.1 (by omega), fun _ => hd, fun hc => absurd hc.1 (by omega)⟩
      · nlinarith [hd, hr, sq_nonneg (y - (y2 - r)), sq_nonneg (x - x1)]
      · nlinarith [hd, hr, sq_nonneg (x - (x1 + r)), sq_nonneg (y - y2)]
    · refine ⟨by omega, ?_, by omega, ?_, fun hc => absurd hc.1 (by omega),
        fun hc => absurd hc.2 (by omega), fun hc => absurd hc.2 (by omega), fun _ => hd⟩
      · nlinarith [hd, hr, sq_nonneg (y - (y2 - r)), sq_nonneg (x - x2)]
      · nlinarith [hd, hr, sq_nonneg (x - (x2 - r)), sq_nonneg (y - y2)]
  · rintro ⟨hx1, hx2, hy1, hy2, hTL, hTR, hBL, hBR⟩
    rcases le_or_lt (x1 + r) x with hxl | hxl
    · rcases le_or_lt x (x2 - r) with hxr | hxr
      · exact Or.inl ⟨hxl, hxr, hy1, hy2⟩
      · rcases le_or_lt (y1 + r) y with hyl | hyl
        · rcases le_or_lt y (y2 - r) with hyr | hyr
          · exact Or.inr (Or.inl ⟨hx1, hx2, hyl, hyr⟩)
          · exact Or.inr (Or.inr (Or.inr (Or.inr (Or.inr
              ⟨hBR ⟨hxr, hyr⟩, by omega, by omega⟩))))
        · exact Or.inr (Or.inr (Or.inr (Or.inl ⟨hTR ⟨hxr, hyl⟩, by omega, by omega⟩)))
    · rcases le_or_lt (y1 + r) y with hyl | hyl
      · rcases le_or_lt y (y2 - r) with hyr | hyr
        · exact Or.inr (Or.inl ⟨hx1, hx2, hyl, hyr⟩)
        · exact Or.inr (Or.inr (Or.inr (Or.inr (Or.inl
            ⟨hBL ⟨hxl, hyr⟩, by omega, by omega⟩))))
      · exact Or.inr (Or.inr (Or.inl ⟨hTL ⟨hxl, hyl⟩, by omega, by omega⟩))

/-- C7 counterexample: radius 0 satisfies the stated precondition
`2 r ≤ min(width, height)`, yet the corner point (x1, y1) is filled (the
first rectangle degenerates to the full box), contradicting the claim
that the four corner points are never filled. -/
theorem c7_counterexample :
    2 * 0 ≤ min (4 - 0) (4 - 0) ∧
    fillsAny (create_rounded_rectangle 0 0 4 4 0 (255, 215, 0)) (0, 0) := by
  decide

/-- C7 amended: for every radius r ≥ 1 and rectangle (x1, y1, x2, y2)
with 2 r ≤ min(width, height), `create_rounded_rectangle` (two straight
rectangles plus four quarter-disc pie slices) fills every pixel of the
rectangle minus the four corner-radius squares, leaves the four corner
points unfilled, and its union of fills is exactly the ideal rounded
rectangle — no gaps at the seams. -/
theorem c7_rounded_rectangle (x1 y1 x2 y2 r : Int) (f : Nat × Nat × Nat)
    (hr : 1 ≤ r) (hw : 2 * r ≤ x2 - x1) (hh : 2 * r ≤ y2 - y1) :
    (∀ p, rectMinusCorners x1 y1 x2 y2 r p →
        fillsAny (create_rounded_rectangle x1 y1 x2 y2 r f) p) ∧
    ¬ fillsAny (create_rounded_rectangle x1 y1 x2 y2 r f) (x1, y1) ∧
    ¬ fillsAny (create_rounded_rectangle x1 y1 x2 y2 r f) (x2, y1) ∧
    ¬ fillsAny (create_rounded_rectangle x1 y1 x2 y2 r f) (x1, y2) ∧
    ¬ fillsAny (create_rounded_rectangle x1 y1 x2 y2 r f) (x2, y2) ∧
    (∀ p, fillsAny (create_rounded_rectangle x1 y1 x2 y2 r f) p ↔
        idealRoundedRect x1 y1 x2 y2 r p) := by
  have hiff := fun p => rr_eq_ideal x1 y1 x2 y2 r f hr hw hh p
  refine ⟨?_, ?_, ?_, ?_, ?_, hiff⟩
  · intro p hp
    rw [hiff]
    obtain ⟨x, y⟩ := p
    obtain ⟨h1, h2, h3, h4, n1, n2, n3, n4⟩ := hp
    exact ⟨h1, h2, h3, h4, fun hc => absurd hc n1, fun hc => absurd hc n2,
      fun hc => absurd hc n3, fun hc => absurd hc n4⟩
  · rw [hiff]
    rintro ⟨_, _, _, _, hTL, _, _, _⟩
    have h := hTL ⟨by omega, by omega⟩
    nlinarith [h, hr]
  · rw [hiff]
    rintro ⟨_, _, _, _, _, hTR, _, _⟩
    have h := hTR ⟨by omega, by omega⟩
    nlinarith [h, hr]
  · rw [hiff]
    rintro ⟨_, _, _, _, _, _, hBL, _⟩
    have h := hBL ⟨by omega, by omega⟩
    nlinarith [h, hr]
  · rw [hiff]
    rintro ⟨_, _, _, _, _, _, _, hBR⟩
    have h := hBR ⟨by omega, by omega⟩
    nlinarith [h, hr]

/-- C7 witness: for the rectangle (0, 0, 4, 4) with radius 1, the centre
pixel is filled and the corner (0, 0) is not. -/
theorem c7_witness :
    fillsAny (create_rounded_rectangle 0 0 4 4 1 (255, 215, 0)) (2, 2) ∧
    ¬ fillsAny (create_rounded_rectangle 0 0 4 4 1 (255, 215, 0)) (0, 0) :=
  ⟨(c7_rounded_rectangle 0 0 4 4 1 (255, 215, 0) (by decide) (by decide) (by decide)).1
      (2, 2) (by decide),
   (c7_rounded_rectangle 0 0 4 4 1 (255, 215, 0) (by decide) (by decide) (by decide)).2.1⟩

end TicketGen
